import Mathlib

/-!
Shallow embedding of the adaptive-bitrate (ABR) streaming core of this
repository (`src/src/App.tsx`): the HLS manifest parser, the quality-selection
algorithm, the segment-fetch retry pipeline, and the bounded telemetry log.

Conventions of the embedding:
* JavaScript strings are represented as `List Char`; string literals from the
  source are written with `String.toList`.
* JavaScript numbers arising from `parseInt` are represented as `ℕ`; the
  arithmetic inside the quality selector (bandwidth scaling, buffer ratio,
  hysteresis thresholds) is represented exactly over `ℚ`.
* The injected randomness of the segment loader (`Math.random() < 0.05`) is
  represented as an explicit failure oracle `ℕ → Bool` giving the outcome of
  each attempt; elapsed delays are accounted as data (milliseconds) rather
  than as real time.
* Fallible code (a `throw` escaping a function) is represented with `Except`.
-/

/-- Severity of a log entry (`type LogType = 'info' | 'warning' | 'error'`). -/
inductive LogType where
  | info
  | warning
  | error
deriving DecidableEq, Repr

/-- One rung of the quality ladder (`interface QualityLevel`). -/
structure QualityLevel where
  id : List Char
  bandwidth : Nat
  resolution : List Char
  url : List Char
  segments : List (List Char)
deriving DecidableEq, Repr

/-- A network sample (`interface NetworkCondition`). -/
structure NetworkCondition where
  bandwidth : ℚ
  latency : ℚ
  packetLoss : ℚ
deriving DecidableEq, Repr

/-- Buffer state (`interface BufferHealth`). -/
structure BufferHealth where
  currentBuffer : ℚ
  targetBuffer : ℚ
  isStarving : Bool
deriving DecidableEq, Repr

/-- `Math.max(0, Math.min(currentQuality, qualityLevels.length - 1))`:
the clamp applied to the caller-supplied quality index at the top of
`selectOptimalQuality`. -/
def safeCurrent (qualityLevels : List QualityLevel) (currentQuality : Int) : Nat :=
  (max 0 (min currentQuality ((qualityLevels.length : Int) - 1))).toNat

/-- `networkCondition.bandwidth * (1 - networkCondition.packetLoss)`. -/
def availableBandwidth (networkCondition : NetworkCondition) : ℚ :=
  networkCondition.bandwidth * (1 - networkCondition.packetLoss)

/-- `bufferHealth.currentBuffer / bufferHealth.targetBuffer` (in `ℚ`, division
by zero yields 0; the source never divides by a zero target in the claims
considered here). -/
def bufferRatio (bufferHealth : BufferHealth) : ℚ :=
  bufferHealth.currentBuffer / bufferHealth.targetBuffer

/-- `const switchUpThreshold = 1.4`. -/
def switchUpThreshold : ℚ := 1.4

/-- `const switchDownThreshold = 0.8`. -/
def switchDownThreshold : ℚ := 0.8

/-- The downward `for (let i = qualityLevels.length - 1; i >= 0; i--)` scan of
`selectOptimalQuality`, entered with `fuel = qualityLevels.length`; the call
with fuel `i + 1` examines index `i`.  Falls through to `0` when the loop
ends (the source's final `return 0`). -/
def scanLoop (qualityLevels : List QualityLevel) (avail ratio : ℚ) (cur : Nat) :
    Nat → Nat
  | 0 => 0
  | i + 1 =>
    match qualityLevels.get? i with
    | none => 0
    | some q =>
      let requiredBandwidth : ℚ := (q.bandwidth : ℚ)
      if i = cur ∧ avail > requiredBandwidth * switchDownThreshold then
        i
      else if cur < i ∧ avail > requiredBandwidth * switchUpThreshold ∧
          ratio > 1.2 then
        i
      else if i < cur ∧ avail > requiredBandwidth * switchDownThreshold then
        i
      else
        scanLoop qualityLevels avail ratio cur i

/-- `selectOptimalQuality(qualityLevels, networkCondition, bufferHealth,
currentQuality)` from `src/src/App.tsx` (lines 191–233): empty-ladder guard,
clamp, emergency single-step downgrade on starvation, then the hysteresis
scan from highest to lowest index. -/
def selectOptimalQuality (qualityLevels : List QualityLevel)
    (networkCondition : NetworkCondition) (bufferHealth : BufferHealth)
    (currentQuality : Int) : Nat :=
  if qualityLevels.length = 0 then 0
  else if bufferHealth.isStarving ∧ 0 < safeCurrent qualityLevels currentQuality then
    safeCurrent qualityLevels currentQuality - 1
  else
    scanLoop qualityLevels (availableBandwidth networkCondition)
      (bufferRatio bufferHealth) (safeCurrent qualityLevels currentQuality)
      qualityLevels.length

/-- The three-level mock ladder used by the repository's own test suite
(bandwidths 800000 / 1400000 / 2800000). -/
def testLadder : List QualityLevel :=
  [⟨"quality_800000_640x360".toList, 800000, "640x360".toList, "test1".toList, []⟩,
   ⟨"quality_1400000_854x480".toList, 1400000, "854x480".toList, "test2".toList, []⟩,
   ⟨"quality_2800000_1280x720".toList, 2800000, "1280x720".toList, "test3".toList, []⟩]

/-- `{ bandwidth: 4000000, latency: 20, packetLoss: 0.01 }`. -/
def goodNetwork : NetworkCondition := ⟨4000000, 20, 0.01⟩

/-- `{ currentBuffer: 40, targetBuffer: 30, isStarving: false }`. -/
def healthyBuffer : BufferHealth := ⟨40, 30, false⟩

/-- `{ bandwidth: 500000, latency: 200, packetLoss: 0.1 }`. -/
def poorNetwork : NetworkCondition := ⟨500000, 200, 0.1⟩

/-- `{ currentBuffer: 2, targetBuffer: 30, isStarving: true }`. -/
def starvingBuffer : BufferHealth := ⟨2, 30, true⟩

/-- A JavaScript string, as a character list. -/
abbrev Line := List Char

/-- `manifestContent.split('\n')`. -/
def splitNl : Line → List Line
  | [] => [[]]
  | '\n' :: rest => [] :: splitNl rest
  | c :: rest =>
    match splitNl rest with
    | [] => [[c]]
    | l :: ls => (c :: l) :: ls

/-- The predicate of `.filter(line => line.trim())`: a line is kept exactly
when its trimmed form is non-empty, i.e. when it has a non-whitespace
character. -/
def keepLine (l : Line) : Bool :=
  l.any (fun c => !c.isWhitespace)

/-- `content.split('\n').filter(line => line.trim())`. -/
def linesOf (content : Line) : List Line :=
  (splitNl content).filter keepLine

/-- `\d+` at the current position: the maximal leading digit run (`none` when
the first character is not a digit), together with the remaining input. -/
def matchDigits (cs : Line) : Option (Line × Line) :=
  if cs.takeWhile Char.isDigit = [] then none
  else some (cs.takeWhile Char.isDigit, cs.dropWhile Char.isDigit)

/-- `/BANDWIDTH=(\d+)/.exec(line)`, returning the capture group: scan for the
first position where the literal `BANDWIDTH=` is followed by at least one
digit; on a partial match the scan advances one character, as regex search
does. -/
def execBandwidth : Line → Option Line
  | [] => none
  | c :: cs =>
    if "BANDWIDTH=".toList.isPrefixOf (c :: cs) then
      match matchDigits ((c :: cs).drop 10) with
      | some (ds, _) => some ds
      | none => execBandwidth cs
    else execBandwidth cs

/-- `\d+x\d+` at the current position (the capture of the resolution regex):
a maximal digit run, an `x`, and a second maximal digit run.  Greedy matching
is exact here because a digit is never `x`. -/
def resolutionAt (cs : Line) : Option Line :=
  match matchDigits cs with
  | none => none
  | some (d1, rest) =>
    match rest with
    | 'x' :: rest2 =>
      match matchDigits rest2 with
      | none => none
      | some (d2, _) => some (d1 ++ 'x' :: d2)
    | _ => none

/-- `/RESOLUTION=(\d+x\d+)/.exec(line)`, returning the capture group. -/
def execResolution : Line → Option Line
  | [] => none
  | c :: cs =>
    if "RESOLUTION=".toList.isPrefixOf (c :: cs) then
      match resolutionAt ((c :: cs).drop 11) with
      | some r => some r
      | none => execResolution cs
    else execResolution cs

/-- `parseInt` on an all-digit capture. -/
def digitsToNat (ds : Line) : Nat :=
  ds.foldl (fun acc c => acc * 10 + (c.toNat - '0'.toNat)) 0

/-- The template `` `quality_${bandwidthMatch[1]}_${resolutionMatch[1]}` ``
building the stable id of a quality level. -/
def mkId (rawBandwidth res : Line) : Line :=
  "quality_".toList ++ rawBandwidth ++ '_' :: res

/-- The `MOCK_HLS_MANIFEST` constant of the repository. -/
def MOCK_HLS_MANIFEST : String :=
  "#EXTM3U\n#EXT-X-VERSION:3\n#EXT-X-STREAM-INF:BANDWIDTH=800000,RESOLUTION=640x360\nstream_360p.m3u8\n#EXT-X-STREAM-INF:BANDWIDTH=1400000,RESOLUTION=854x480\nstream_480p.m3u8\n#EXT-X-STREAM-INF:BANDWIDTH=2800000,RESOLUTION=1280x720\nstream_720p.m3u8\n#EXT-X-STREAM-INF:BANDWIDTH=5000000,RESOLUTION=1920x1080\nstream_1080p.m3u8"

/-- One entry of `MOCK_SEGMENT_PLAYLISTS` (they differ only in the name). -/
def mockPlaylist (name : String) : Line :=
  "#EXTM3U\n#EXT-X-VERSION:3\n#EXT-X-TARGETDURATION:10\n#EXTINF:10.0,\nsegment_".toList ++
    name.toList ++ "_001.ts\n#EXTINF:10.0,\nsegment_".toList ++
    name.toList ++ "_002.ts\n#EXTINF:10.0,\nsegment_".toList ++
    name.toList ++ "_003.ts\n#EXT-X-ENDLIST".toList

/-- The `MOCK_SEGMENT_PLAYLISTS` map, as an association list. -/
def MOCK_SEGMENT_PLAYLISTS : List (Line × Line) :=
  [("stream_360p.m3u8".toList, mockPlaylist "360p"),
   ("stream_480p.m3u8".toList, mockPlaylist "480p"),
   ("stream_720p.m3u8".toList, mockPlaylist "720p"),
   ("stream_1080p.m3u8".toList, mockPlaylist "1080p")]

/-- Property lookup `MOCK_SEGMENT_PLAYLISTS[playlistUrl]`. -/
def lookupPlaylist (url : Line) : Option Line :=
  (MOCK_SEGMENT_PLAYLISTS.find? (fun p => p.1 == url)).map (fun p => p.2)

/-- The indexed loop of `parseSegmentPlaylist`: at each index, a line starting
with `#EXTINF:` that has a following line contributes that following line. -/
def segGo : List Line → List Line
  | [] => []
  | [_] => []
  | l :: next :: rest =>
    if "#EXTINF:".toList.isPrefixOf l then next :: segGo (next :: rest)
    else segGo (next :: rest)

/-- `parseSegmentPlaylist(playlistUrl)`: resolves the url in the mock map
(throwing `Playlist not found` otherwise) and collects the segment lines. -/
def parseSegmentPlaylist (url : Line) : Except Line (List Line) :=
  match lookupPlaylist url with
  | none => .error ("Playlist not found: ".toList ++ url)
  | some content => .ok (segGo (linesOf content))

/-- The indexed loop of `parseHLSManifest`: a line starting with
`#EXT-X-STREAM-INF:` whose bandwidth and resolution regexes both match and
that has a following line contributes one `QualityLevel` (resolving that
line as its playlist, which may fail); any other line is skipped. -/
def manifestGo : List Line → Except Line (List QualityLevel)
  | [] => .ok []
  | line :: rest =>
    if "#EXT-X-STREAM-INF:".toList.isPrefixOf line then
      match execBandwidth line with
      | none => manifestGo rest
      | some bw =>
        match execResolution line with
        | none => manifestGo rest
        | some res =>
          match rest with
          | [] => manifestGo rest
          | url :: _ =>
            match parseSegmentPlaylist url with
            | .error e => .error e
            | .ok segs =>
              match manifestGo rest with
              | .error e => .error e
              | .ok qs =>
                .ok (⟨mkId bw res, digitsToNat bw, res, url, segs⟩ :: qs)
    else manifestGo rest

/-- `parseHLSManifest(manifestContent)` from `src/src/App.tsx` (lines
132–161): split into non-blank lines, run the stream-info loop, and sort the
collected levels ascending by bandwidth (`.sort((a, b) => a.bandwidth -
b.bandwidth)`; ECMAScript `sort` is a stable ascending sort under this
comparator, modelled by a stable insertion sort, which produces the same
list as any stable sort). -/
def parseHLSManifest (manifestContent : Line) : Except Line (List QualityLevel) :=
  (manifestGo (linesOf manifestContent)).map
    (fun qs => qs.insertionSort (fun a b => a.bandwidth ≤ b.bandwidth))

/-- A two-rendition manifest whose entries appear out of bandwidth order. -/
def demoManifest : String :=
  "#EXT-X-STREAM-INF:BANDWIDTH=2800000,RESOLUTION=1280x720\nstream_720p.m3u8\n#EXT-X-STREAM-INF:BANDWIDTH=800000,RESOLUTION=640x360\nstream_360p.m3u8"

/-- The quality level `parseHLSManifest` builds for the 360p mock rendition. -/
def demoLevel360 : QualityLevel :=
  ⟨"quality_800000_640x360".toList, 800000, "640x360".toList,
   "stream_360p.m3u8".toList,
   ["segment_360p_001.ts".toList, "segment_360p_002.ts".toList,
    "segment_360p_003.ts".toList]⟩

/-- The quality level `parseHLSManifest` builds for the 720p mock rendition. -/
def demoLevel720 : QualityLevel :=
  ⟨"quality_2800000_1280x720".toList, 2800000, "1280x720".toList,
   "stream_720p.m3u8".toList,
   ["segment_720p_001.ts".toList, "segment_720p_002.ts".toList,
    "segment_720p_003.ts".toList]⟩

/-- A manifest that lists the same (bandwidth, resolution) rendition twice. -/
def dupManifest : String :=
  "#EXT-X-STREAM-INF:BANDWIDTH=800000,RESOLUTION=640x360\nstream_360p.m3u8\n#EXT-X-STREAM-INF:BANDWIDTH=800000,RESOLUTION=640x360\nstream_360p.m3u8"

/-- A manifest whose only stream-info entry is missing `RESOLUTION`. -/
def noValidManifest : String :=
  "#EXTM3U\n#EXT-X-STREAM-INF:BANDWIDTH=800000\nstream_360p.m3u8"

/-- A manifest whose only stream-info entry is missing `BANDWIDTH`. -/
def noBandwidthManifest : String :=
  "#EXTM3U\n#EXT-X-STREAM-INF:RESOLUTION=640x360\nstream_360p.m3u8"

/-- The shape every level built by the manifest loop has: its id is the
template `quality_<digits>_<resolution>` over the raw bandwidth capture (a
non-empty digit string) and the stored resolution (digits, `x`, digits —
in particular underscore-free), and its bandwidth is `parseInt` of that
capture. -/
def ShapedLevel (q : QualityLevel) : Prop :=
  ∃ raw,
    (raw ≠ [] ∧ ∀ c ∈ raw, c.isDigit) ∧
    (∀ c ∈ q.resolution, c.isDigit ∨ c = 'x') ∧
    q.id = mkId raw q.resolution ∧
    q.bandwidth = digitsToNat raw

/-- Decides whether some indexed position of the line list would produce a
quality level: a `#EXT-X-STREAM-INF:` line with both captures matching and a
following line. -/
def hasValidEntry : List Line → Bool
  | [] => false
  | [_] => false
  | l :: next :: rest =>
    ("#EXT-X-STREAM-INF:".toList.isPrefixOf l && (execBandwidth l).isSome &&
      (execResolution l).isSome) || hasValidEntry (next :: rest)

/-- The structured result of `loadSegment`: `{ success: boolean; data?: Blob;
error?: string }`, the blob represented by its string contents. -/
structure LoadResult where
  success : Bool
  data : Option Line
  error : Option Line
deriving DecidableEq, Repr

/-- The message of the error thrown by the fault injection:
`` `Network error loading ${segmentUrl}` ``. -/
def networkErrorMsg (segmentUrl : Line) : Line :=
  "Network error loading ".toList ++ segmentUrl

/-- The terminal failure message
`` `Failed to load ${segmentUrl} after ${retries} attempts: ${errorMessage}` ``. -/
def exhaustedMsg (segmentUrl : Line) (retries : Nat) : Line :=
  "Failed to load ".toList ++ segmentUrl ++ " after ".toList ++
    Nat.toDigits 10 retries ++ " attempts: ".toList ++ networkErrorMsg segmentUrl

/-- The mock blob contents `` `video_segment_${segmentUrl}` ``. -/
def segmentBlob (segmentUrl : Line) : Line :=
  "video_segment_".toList ++ segmentUrl

/-- The retry loop of `loadSegment`, instrumented: the result together with
the number of attempts performed and the total exponential backoff in
milliseconds.  `fail attempt` is the outcome of the injected randomness
(`Math.random() < 0.05`) at the 0-indexed attempt; `remaining` is
`retries - attempt`, the loop iterations left. -/
def loadSegmentGo (segmentUrl : Line) (retries : Nat) (fail : Nat → Bool) :
    Nat → Nat → LoadResult × Nat × Nat
  | 0, _ => (⟨false, none, some "Unexpected error in retry loop".toList⟩, 0, 0)
  | remaining + 1, attempt =>
    if fail attempt then
      if attempt = retries - 1 then
        (⟨false, none, some (exhaustedMsg segmentUrl retries)⟩, 1, 0)
      else
        match loadSegmentGo segmentUrl retries fail remaining (attempt + 1) with
        | (res, n, b) => (res, n + 1, b + 2 ^ attempt * 1000)
    else
      (⟨true, some (segmentBlob segmentUrl), none⟩, 1, 0)

/-- `loadSegment(segmentUrl, networkCondition, retries = 3)` from
`src/src/App.tsx` (lines 241–280), instrumented with the attempt count and
total backoff milliseconds.  The latency delay affects only elapsed time,
never the result, and is not modelled. -/
def loadSegment (segmentUrl : Line) (networkCondition : NetworkCondition)
    (retries : Nat) (fail : Nat → Bool) : LoadResult × Nat × Nat :=
  loadSegmentGo segmentUrl retries fail retries 0

/-- A log entry (`interface LogEntry`). -/
structure LogEntry where
  id : Line
  message : Line
  timestamp : Line
  type : LogType
deriving DecidableEq, Repr

/-- A buffer event (`interface BufferEvent`). -/
structure BufferEvent where
  id : Line
  timestamp : Line
  type : LogType
  message : Line
deriving DecidableEq, Repr

/-- The two log stores `logEvent` writes to: the `logs` state and
`metrics.bufferEvents`. -/
structure PlayerTelemetry where
  logs : List LogEntry
  bufferEvents : List BufferEvent
deriving DecidableEq, Repr

/-- One invocation of `logEvent`: its two arguments plus the ambient
timestamp and the two generated uuid-based ids. -/
structure LogCall where
  message : Line
  type : LogType
  timestamp : Line
  logId : Line
  bufferId : Line
deriving DecidableEq, Repr

/-- `array.slice(-n)`: the last `n` elements (the whole array when it is
shorter). -/
def sliceLast (n : Nat) (l : List α) : List α :=
  l.drop (l.length - n)

/-- The log entry `logEvent` constructs. -/
def mkLogEntry (call : LogCall) : LogEntry :=
  ⟨call.logId, call.message, call.timestamp, call.type⟩

/-- The buffer event `logEvent` constructs for warning/error severity. -/
def mkBufferEvent (call : LogCall) : BufferEvent :=
  ⟨call.bufferId, call.timestamp, call.type, call.message⟩

/-- `type === 'warning' || type === 'error'`. -/
def isBufferSeverity (t : LogType) : Bool :=
  t == LogType.warning || t == LogType.error

/-- `logEvent(message, type)` from `src/src/App.tsx` (lines 490–515):
`setLogs(prev => [...prev.slice(-49), logEntry])`, and for warning/error
severity `bufferEvents: [...prev.bufferEvents.slice(-19), bufferEvent]`. -/
def logEvent (st : PlayerTelemetry) (call : LogCall) : PlayerTelemetry :=
  { logs := sliceLast 49 st.logs ++ [mkLogEntry call],
    bufferEvents :=
      if isBufferSeverity call.type then
        sliceLast 19 st.bufferEvents ++ [mkBufferEvent call]
      else st.bufferEvents }

/-- The initial state: `useState<LogEntry[]>([])` and `bufferEvents: []`. -/
def initTelemetry : PlayerTelemetry := ⟨[], []⟩

theorem safeCurrent_le (qualityLevels : List QualityLevel) (currentQuality : Int) :
    safeCurrent qualityLevels currentQuality ≤ qualityLevels.length - 1 := by
  simp only [safeCurrent]
  omega

theorem safeCurrent_idem (qualityLevels : List QualityLevel) (currentQuality : Int) :
    safeCurrent qualityLevels ((safeCurrent qualityLevels currentQuality : Nat) : Int) =
      safeCurrent qualityLevels currentQuality := by
  simp only [safeCurrent]
  omega

theorem scanLoop_lt (qualityLevels : List QualityLevel) (avail ratio : ℚ)
    (cur : Nat) :
    ∀ fuel, fuel ≤ qualityLevels.length → 0 < qualityLevels.length →
      scanLoop qualityLevels avail ratio cur fuel < qualityLevels.length := by
  intro fuel
  induction fuel with
  | zero => intro _ hpos; simpa [scanLoop] using hpos
  | succ i ih =>
    intro hle hpos
    have hi : i < qualityLevels.length := hle
    rw [scanLoop]
    rcases hq : qualityLevels.get? i with _ | q
    · rw [List.get?_eq_none] at hq
      omega
    · simp only
      split
      · exact hi
      · split
        · exact hi
        · split
          · exact hi
          · exact ih (le_of_lt hi) hpos

/-- C1: with the three-level ladder `[800000, 1400000, 2800000]`, network
`{bandwidth: 4000000, packetLoss: 0.01}`, buffer `{currentBuffer: 40,
targetBuffer: 30, isStarving: false}` and `currentQuality = 0`,
`selectOptimalQuality` returns 2: the available bandwidth
`4000000 × (1 − 0.01)` clears `2800000 × 1.4` and the buffer ratio `40/30`
clears `1.2`, so the upgrade branch fires at the top of the downward scan. -/
theorem select_top_tier_on_good_network :
    selectOptimalQuality testLadder goodNetwork healthyBuffer 0 = 2 := by
  norm_num [selectOptimalQuality, scanLoop, safeCurrent, availableBandwidth,
    bufferRatio, switchUpThreshold, switchDownThreshold, testLadder,
    goodNetwork, healthyBuffer]

/-- C2: for every non-empty ladder, every network condition, and every buffer
health with `isStarving = true`, if the clamped current index is positive then
`selectOptimalQuality` returns exactly that index minus one — a single-step
emergency downgrade that preempts all other selection logic. -/
theorem select_starving_single_step (qualityLevels : List QualityLevel)
    (networkCondition : NetworkCondition) (bufferHealth : BufferHealth)
    (currentQuality : Int) (hne : qualityLevels ≠ [])
    (hst : bufferHealth.isStarving = true)
    (hpos : 0 < safeCurrent qualityLevels currentQuality) :
    selectOptimalQuality qualityLevels networkCondition bufferHealth currentQuality =
      safeCurrent qualityLevels currentQuality - 1 := by
  have hlen : ¬ qualityLevels.length = 0 := by
    have := List.length_pos.mpr hne
    omega
  unfold selectOptimalQuality
  rw [if_neg hlen, if_pos ⟨hst, hpos⟩]

/-- Witness for C2: the spec's own instance — ladder
`[800000, 1400000, 2800000]`, network `{bandwidth: 500000, packetLoss: 0.1}`,
buffer `{currentBuffer: 2, targetBuffer: 30, isStarving: true}`,
`currentQuality = 2` — yields 1. -/
theorem select_starving_single_step_witness :
    selectOptimalQuality testLadder poorNetwork starvingBuffer 2 = 1 := by
  rw [select_starving_single_step testLadder poorNetwork starvingBuffer 2
    (by decide) rfl (by decide)]
  decide

/-- C3: `selectOptimalQuality` returns 0 on an empty ladder, and on any ladder
it depends on `currentQuality` only through the clamp
`max 0 (min currentQuality (length − 1))`, whose value always lies in
`[0, length − 1]`; an out-of-range `currentQuality` therefore never reaches
the scan unclamped. -/
theorem select_clamps_current :
    (∀ (networkCondition : NetworkCondition) (bufferHealth : BufferHealth)
        (currentQuality : Int),
      selectOptimalQuality [] networkCondition bufferHealth currentQuality = 0) ∧
    (∀ (qualityLevels : List QualityLevel) (networkCondition : NetworkCondition)
        (bufferHealth : BufferHealth) (currentQuality : Int),
      selectOptimalQuality qualityLevels networkCondition bufferHealth currentQuality =
        selectOptimalQuality qualityLevels networkCondition bufferHealth
          ((safeCurrent qualityLevels currentQuality : Nat) : Int) ∧
      safeCurrent qualityLevels currentQuality ≤ qualityLevels.length - 1) := by
  constructor
  · intro networkCondition bufferHealth currentQuality
    simp [selectOptimalQuality]
  · intro qualityLevels networkCondition bufferHealth currentQuality
    refine ⟨?_, safeCurrent_le qualityLevels currentQuality⟩
    simp only [selectOptimalQuality, safeCurrent_idem]

/-- C5: for every non-empty ladder, any network condition, any buffer health
and any integer `currentQuality`, the index returned by
`selectOptimalQuality` is a valid index into the ladder. -/
theorem select_returns_valid_index (qualityLevels : List QualityLevel)
    (networkCondition : NetworkCondition) (bufferHealth : BufferHealth)
    (currentQuality : Int) (hne : qualityLevels ≠ []) :
    selectOptimalQuality qualityLevels networkCondition bufferHealth currentQuality <
      qualityLevels.length := by
  have hpos : 0 < qualityLevels.length := List.length_pos.mpr hne
  have hlen : ¬ qualityLevels.length = 0 := by omega
  unfold selectOptimalQuality
  rw [if_neg hlen]
  by_cases hb : bufferHealth.isStarving ∧ 0 < safeCurrent qualityLevels currentQuality
  · rw [if_pos hb]
    have := safeCurrent_le qualityLevels currentQuality
    omega
  · rw [if_neg hb]
    exact scanLoop_lt qualityLevels _ _ _ qualityLevels.length le_rfl hpos

/-- Witness for C5: an out-of-range `currentQuality = 10` against the
three-element ladder still produces a valid index. -/
theorem select_returns_valid_index_witness :
    selectOptimalQuality testLadder goodNetwork healthyBuffer 10 <
      testLadder.length :=
  select_returns_valid_index testLadder goodNetwork healthyBuffer 10 (by decide)

theorem matchDigits_spec (cs ds rest : Line) (h : matchDigits cs = some (ds, rest)) :
    ds ≠ [] ∧ ∀ c ∈ ds, c.isDigit := by
  unfold matchDigits at h
  split at h
  · cases h
  · rename_i hne
    injection h with h'
    injection h' with h1 h2
    subst h1
    exact ⟨hne, fun c hc => List.mem_takeWhile_imp hc⟩

theorem execBandwidth_spec (l ds : Line) (h : execBandwidth l = some ds) :
    ds ≠ [] ∧ ∀ c ∈ ds, c.isDigit := by
  induction l with
  | nil => cases h
  | cons c cs ih =>
    rw [execBandwidth] at h
    split at h
    · split at h
      · rename_i pair heq
        injection h with h'
        subst h'
        exact matchDigits_spec _ _ _ heq
      · exact ih h
    · exact ih h

theorem resolutionAt_spec (cs r : Line) (h : resolutionAt cs = some r) :
    ∀ c ∈ r, c.isDigit ∨ c = 'x' := by
  unfold resolutionAt at h
  split at h
  · cases h
  · rename_i d1 rest1 heq1
    split at h
    · rename_i rest2
      split at h
      · cases h
      · rename_i d2 rest3 heq2
        injection h with h'
        subst h'
        intro c hc
        rcases List.mem_append.mp hc with hc1 | hc2
        · exact Or.inl ((matchDigits_spec _ _ _ heq1).2 c hc1)
        · rcases List.mem_cons.mp hc2 with hcx | hc3
          · exact Or.inr hcx
          · exact Or.inl ((matchDigits_spec _ _ _ heq2).2 c hc3)
    · cases h

theorem execResolution_spec (l r : Line) (h : execResolution l = some r) :
    ∀ c ∈ r, c.isDigit ∨ c = 'x' := by
  induction l with
  | nil => cases h
  | cons c cs ih =>
    rw [execResolution] at h
    split at h
    · split at h
      · rename_i r' heq
        injection h with h'
        subst h'
        exact resolutionAt_spec _ _ heq
      · exact ih h
    · exact ih h

theorem digit_not_underscore {c : Char} (h : c.isDigit = true) : c ≠ '_' := by
  intro heq
  rw [heq] at h
  exact absurd h (by decide)

theorem underscore_split :
    ∀ (a₁ : Line) {a₂ b₁ b₂ : Line}, '_' ∉ a₁ → '_' ∉ a₂ →
      a₁ ++ '_' :: b₁ = a₂ ++ '_' :: b₂ → a₁ = a₂ ∧ b₁ = b₂ := by
  intro a₁
  induction a₁ with
  | nil =>
    intro a₂ b₁ b₂ _ h2 heq
    cases a₂ with
    | nil =>
      simp only [List.nil_append] at heq
      injection heq with _ h'
      exact ⟨rfl, h'⟩
    | cons d ds =>
      simp only [List.nil_append, List.cons_append] at heq
      injection heq with h' _
      subst h'
      exact absurd (List.mem_cons_self _ _) h2
  | cons c cs ih =>
    intro a₂ b₁ b₂ h1 h2 heq
    cases a₂ with
    | nil =>
      simp only [List.cons_append, List.nil_append] at heq
      injection heq with h' _
      subst h'
      exact absurd (List.mem_cons_self _ _) h1
    | cons d ds =>
      simp only [List.cons_append] at heq
      injection heq with hhd htl
      have h1' : '_' ∉ cs := fun hm => h1 (List.mem_cons_of_mem c hm)
      have h2' : '_' ∉ ds := fun hm => h2 (List.mem_cons_of_mem d hm)
      obtain ⟨he1, he2⟩ := ih h1' h2' htl
      exact ⟨by rw [hhd, he1], he2⟩

theorem shaped_id_inj (q₁ q₂ : QualityLevel) (h₁ : ShapedLevel q₁)
    (h₂ : ShapedLevel q₂) (hid : q₁.id = q₂.id) :
    q₁.bandwidth = q₂.bandwidth ∧ q₁.resolution = q₂.resolution := by
  obtain ⟨raw₁, ⟨hne₁, hdig₁⟩, hres₁, hid₁, hbw₁⟩ := h₁
  obtain ⟨raw₂, ⟨hne₂, hdig₂⟩, hres₂, hid₂, hbw₂⟩ := h₂
  rw [hid₁, hid₂] at hid
  unfold mkId at hid
  rw [List.append_assoc, List.append_assoc] at hid
  have hid' := List.append_cancel_left hid
  have hu₁ : '_' ∉ raw₁ := fun hm => digit_not_underscore (hdig₁ '_' hm) rfl
  have hu₂ : '_' ∉ raw₂ := fun hm => digit_not_underscore (hdig₂ '_' hm) rfl
  obtain ⟨hraw, hres⟩ := underscore_split raw₁ hu₁ hu₂ hid'
  exact ⟨by rw [hbw₁, hbw₂, hraw], hres⟩

theorem manifestGo_shaped :
    ∀ (lines : List Line) (qs : List QualityLevel),
      manifestGo lines = .ok qs → ∀ q ∈ qs, ShapedLevel q := by
  intro lines
  induction lines with
  | nil =>
    intro qs h q hq
    rw [manifestGo] at h
    injection h with h'
    subst h'
    cases hq
  | cons line rest ih =>
    intro qs h q hq
    rw [manifestGo] at h
    by_cases hpref : "#EXT-X-STREAM-INF:".toList.isPrefixOf line
    case neg =>
      rw [if_neg hpref] at h
      exact ih qs h q hq
    case pos =>
      rw [if_pos hpref] at h
      rcases hbw : execBandwidth line with _ | bw
      case none =>
        rw [hbw] at h
        exact ih qs h q hq
      case some =>
        rw [hbw] at h
        rcases hres : execResolution line with _ | res
        case none =>
          rw [hres] at h
          exact ih qs h q hq
        case some =>
          rw [hres] at h
          cases rest with
          | nil => exact ih qs h q hq
          | cons url tl =>
            simp only at h
            rcases hseg : parseSegmentPlaylist url with e | segs
            case error =>
              rw [hseg] at h
              cases h
            case ok =>
              rw [hseg] at h
              rcases hgo : manifestGo (url :: tl) with e | qs'
              case error =>
                rw [hgo] at h
                cases h
              case ok =>
                rw [hgo] at h
                injection h with h'
                subst h'
                rcases List.mem_cons.mp hq with hq1 | hq2
                · subst hq1
                  refine ⟨bw, ⟨?_, ?_⟩, ?_, rfl, rfl⟩
                  · exact (execBandwidth_spec _ _ hbw).1
                  · exact (execBandwidth_spec _ _ hbw).2
                  · exact execResolution_spec _ _ hres
                · exact ih qs' hgo q hq2

theorem manifestGo_no_valid (lines : List Line)
    (h : hasValidEntry lines = false) : manifestGo lines = .ok [] := by
  induction lines with
  | nil => rw [manifestGo]
  | cons line rest ih =>
    cases rest with
    | nil =>
      rw [manifestGo]
      by_cases hpref : "#EXT-X-STREAM-INF:".toList.isPrefixOf line
      · rw [if_pos hpref]
        rcases hbw : execBandwidth line with _ | bw <;>
          rcases hres : execResolution line with _ | res <;>
            simp [manifestGo]
      · rw [if_neg hpref, manifestGo]
    | cons next tl =>
      rw [hasValidEntry] at h
      rw [Bool.or_eq_false_iff] at h
      obtain ⟨hhead, htail⟩ := h
      rw [manifestGo]
      by_cases hpref : "#EXT-X-STREAM-INF:".toList.isPrefixOf line
      · rw [if_pos hpref]
        rcases hbw : execBandwidth line with _ | bw
        · exact ih htail
        · rcases hres : execResolution line with _ | res
          · exact ih htail
          · exfalso
            rw [Bool.and_eq_false_iff, Bool.and_eq_false_iff] at hhead
            rcases hhead with (hp | hb) | hr
            · rw [hpref] at hp
              cases hp
            · rw [hbw] at hb
              cases hb
            · rw [hres] at hr
              cases hr
      · rw [if_neg hpref]
        exact ih htail

theorem parse_mem_shaped (m : Line) (qs : List QualityLevel)
    (h : parseHLSManifest m = .ok qs) : ∀ q ∈ qs, ShapedLevel q := by
  unfold parseHLSManifest at h
  rcases hg : manifestGo (linesOf m) with e | qs'
  · rw [hg] at h
    simp only [Except.map] at h
    cases h
  · rw [hg] at h
    simp only [Except.map] at h
    injection h with h'
    subst h'
    intro q hq
    have hmem : q ∈ qs' :=
      (List.perm_insertionSort (fun a b => a.bandwidth ≤ b.bandwidth) qs').mem_iff.mp hq
    exact manifestGo_shaped (linesOf m) qs' hg q hmem

/-- C4 counterexample: a manifest whose only stream-info entry is missing
`RESOLUTION` has no valid entries, yet `parseHLSManifest` succeeds with the
empty ladder instead of signalling a parse failure. -/
theorem parse_no_valid_succeeds_cex :
    parseHLSManifest noValidManifest.toList = Except.ok [] := by rfl

/-- C4 (amended): an entry missing `BANDWIDTH` or `RESOLUTION` is skipped,
and when zero valid entries remain `parseHLSManifest` succeeds with an empty
ladder — it raises no parse error. -/
theorem parse_ok_empty_of_no_valid (m : Line)
    (h : hasValidEntry (linesOf m) = false) :
    parseHLSManifest m = Except.ok [] := by
  unfold parseHLSManifest
  rw [manifestGo_no_valid (linesOf m) h]
  rfl

/-- Witness for the amended C4: a manifest whose single stream-info entry is
missing `BANDWIDTH` parses to the empty ladder. -/
theorem parse_ok_empty_of_no_valid_witness :
    parseHLSManifest noBandwidthManifest.toList = Except.ok [] :=
  parse_ok_empty_of_no_valid noBandwidthManifest.toList (by rfl)

/-- C8: whenever `parseHLSManifest` succeeds, the returned quality levels are
sorted in ascending order of bandwidth. -/
theorem parse_sorted_by_bandwidth (m : Line) (qs : List QualityLevel)
    (h : parseHLSManifest m = .ok qs) :
    List.Sorted (fun a b => a.bandwidth ≤ b.bandwidth) qs := by
  unfold parseHLSManifest at h
  rcases hg : manifestGo (linesOf m) with e | qs'
  · rw [hg] at h
    simp only [Except.map] at h
    cases h
  · rw [hg] at h
    simp only [Except.map] at h
    injection h with h'
    subst h'
    haveI : IsTotal QualityLevel (fun a b => a.bandwidth ≤ b.bandwidth) :=
      ⟨fun a b => Nat.le_total a.bandwidth b.bandwidth⟩
    haveI : IsTrans QualityLevel (fun a b => a.bandwidth ≤ b.bandwidth) :=
      ⟨fun _ _ _ hab hbc => Nat.le_trans hab hbc⟩
    exact List.sorted_insertionSort _ _

/-- Witness for C8: a two-rendition manifest listed high-to-low parses to the
two levels in ascending bandwidth order. -/
theorem parse_sorted_by_bandwidth_witness :
    parseHLSManifest demoManifest.toList = Except.ok [demoLevel360, demoLevel720] ∧
    List.Sorted (fun a b : QualityLevel => a.bandwidth ≤ b.bandwidth)
      [demoLevel360, demoLevel720] :=
  ⟨by rfl,
   parse_sorted_by_bandwidth demoManifest.toList [demoLevel360, demoLevel720]
     (by rfl)⟩

/-- C9 counterexample: a manifest repeating the same
`(bandwidth, resolution)` entry parses successfully to two levels with equal
ids, so the ids of a parse result are not pairwise distinct in general. -/
theorem parse_ids_not_unique_cex :
    parseHLSManifest dupManifest.toList =
      Except.ok [demoLevel360, demoLevel360] ∧
    ¬ ([demoLevel360, demoLevel360].map QualityLevel.id).Nodup :=
  ⟨by rfl, by decide⟩

/-- C9 (amended): ids are derived deterministically from each entry's
bandwidth capture and resolution, so two parsed levels share an id only when
they agree on both bandwidth and resolution; entries with distinct
`(bandwidth, resolution)` pairs always receive distinct ids, but a manifest
repeating a pair yields duplicate ids. -/
theorem parse_id_collision_same_pair (m : Line) (qs : List QualityLevel)
    (h : parseHLSManifest m = .ok qs) :
    ∀ q₁ ∈ qs, ∀ q₂ ∈ qs, q₁.id = q₂.id →
      q₁.bandwidth = q₂.bandwidth ∧ q₁.resolution = q₂.resolution := by
  intro q₁ h₁ q₂ h₂ hid
  exact shaped_id_inj q₁ q₂ (parse_mem_shaped m qs h q₁ h₁)
    (parse_mem_shaped m qs h q₂ h₂) hid

/-- Witness for the amended C9: applied to the duplicate-entry manifest, the
two colliding levels indeed agree on bandwidth and resolution. -/
theorem parse_id_collision_same_pair_witness :
    demoLevel360.bandwidth = demoLevel360.bandwidth ∧
    demoLevel360.resolution = demoLevel360.resolution :=
  parse_id_collision_same_pair dupManifest.toList [demoLevel360, demoLevel360]
    (by rfl) demoLevel360 (List.mem_cons_self _ _) demoLevel360
    (List.mem_cons_of_mem _ (List.mem_cons_self _ _)) rfl

theorem loadSegmentGo_allFail (segmentUrl : Line) (retries : Nat) :
    ∀ r attempt, attempt + r + 1 = retries →
      loadSegmentGo segmentUrl retries (fun _ => true) (r + 1) attempt =
        (⟨false, none, some (exhaustedMsg segmentUrl retries)⟩, r + 1,
         ((List.range' attempt r).map (fun i => 2 ^ i * 1000)).sum) := by
  intro r
  induction r with
  | zero =>
    intro attempt htot
    have hlast : attempt = retries - 1 := by omega
    simp [loadSegmentGo, hlast, List.range']
  | succ r' ih =>
    intro attempt htot
    have hlast : ¬ (attempt = retries - 1) := by omega
    rw [loadSegmentGo]
    simp only [if_pos rfl, if_neg hlast]
    rw [ih (attempt + 1) (by omega)]
    rw [List.range'_succ attempt r' 1]
    simp [Nat.add_comm]

/-- C6: against a 100%-failure oracle, `loadSegment` performs exactly
`retries` attempts, returns a terminal failure whose message carries the last
attempt's error, and accumulates an exponential backoff of
`2^attempt × 1000 ms` after every failed attempt except the last, for a
total of `Σ 2^i × 1000 ms` over `i ∈ [0, retries − 2]`. -/
theorem loadSegment_exhausts_retries (segmentUrl : Line)
    (networkCondition : NetworkCondition) (retries : Nat) (h : 1 ≤ retries) :
    loadSegment segmentUrl networkCondition retries (fun _ => true) =
      (⟨false, none, some (exhaustedMsg segmentUrl retries)⟩, retries,
       ((List.range (retries - 1)).map (fun i => 2 ^ i * 1000)).sum) := by
  unfold loadSegment
  obtain ⟨r, hr⟩ : ∃ r, retries = r + 1 := ⟨retries - 1, by omega⟩
  rw [hr]
  rw [loadSegmentGo_allFail segmentUrl (r + 1) r 0 (by omega)]
  simp [List.range_eq_range']

/-- Witness for C6: with the default `retries = 3` every attempt fails, three
attempts are made, and the backoff totals `(2^0 + 2^1) × 1000 = 3000` ms. -/
theorem loadSegment_exhausts_retries_witness :
    loadSegment "segment_360p_001.ts".toList goodNetwork 3 (fun _ => true) =
      (⟨false, none,
        some "Failed to load segment_360p_001.ts after 3 attempts: Network error loading segment_360p_001.ts".toList⟩,
       3, 3000) := by
  rw [loadSegment_exhausts_retries "segment_360p_001.ts".toList goodNetwork 3
    (by decide)]
  rfl

theorem loadSegmentGo_structured (segmentUrl : Line) (retries : Nat)
    (fail : Nat → Bool) :
    ∀ remaining attempt,
      (((loadSegmentGo segmentUrl retries fail remaining attempt).1.success = true ∧
        (loadSegmentGo segmentUrl retries fail remaining attempt).1.data =
          some (segmentBlob segmentUrl) ∧
        (loadSegmentGo segmentUrl retries fail remaining attempt).1.error = none) ∨
       ((loadSegmentGo segmentUrl retries fail remaining attempt).1.success = false ∧
        (loadSegmentGo segmentUrl retries fail remaining attempt).1.data = none ∧
        (loadSegmentGo segmentUrl retries fail remaining attempt).1.error.isSome)) := by
  intro remaining
  induction remaining with
  | zero =>
    intro attempt
    rw [loadSegmentGo]
    exact Or.inr ⟨rfl, rfl, rfl⟩
  | succ r ih =>
    intro attempt
    rw [loadSegmentGo]
    by_cases hf : fail attempt
    · rw [if_pos hf]
      by_cases hlast : attempt = retries - 1
      · rw [if_pos hlast]
        exact Or.inr ⟨rfl, rfl, rfl⟩
      · rw [if_neg hlast]
        rcases hrec : loadSegmentGo segmentUrl retries fail r (attempt + 1) with
          ⟨res, n, b⟩
        have := ih (attempt + 1)
        rw [hrec] at this
        simpa using this
    · rw [if_neg hf]
      exact Or.inl ⟨rfl, rfl, rfl⟩

/-- C10: for every segment url, network condition, retry budget ≥ 1 and
failure oracle, `loadSegment` resolves to a structured result that is either
a success carrying the mock blob data and no error, or a failure carrying no
data and an error message — it never escapes with an exception. -/
theorem loadSegment_total_interface (segmentUrl : Line)
    (networkCondition : NetworkCondition) (retries : Nat) (fail : Nat → Bool)
    (h : 1 ≤ retries) :
    ((loadSegment segmentUrl networkCondition retries fail).1.success = true ∧
      (loadSegment segmentUrl networkCondition retries fail).1.data =
        some (segmentBlob segmentUrl) ∧
      (loadSegment segmentUrl networkCondition retries fail).1.error = none) ∨
    ((loadSegment segmentUrl networkCondition retries fail).1.success = false ∧
      (loadSegment segmentUrl networkCondition retries fail).1.data = none ∧
      (loadSegment segmentUrl networkCondition retries fail).1.error.isSome) :=
  loadSegmentGo_structured segmentUrl retries fail retries 0

/-- Witness for C10: a concrete instance (always-failing oracle, the default
3 retries) lands in one of the two structured shapes. -/
theorem loadSegment_total_interface_witness :
    1 ≤ 3 ∧
    (((loadSegment "seg.ts".toList goodNetwork 3 (fun _ => true)).1.success = true ∧
      (loadSegment "seg.ts".toList goodNetwork 3 (fun _ => true)).1.data =
        some (segmentBlob "seg.ts".toList) ∧
      (loadSegment "seg.ts".toList goodNetwork 3 (fun _ => true)).1.error = none) ∨
     ((loadSegment "seg.ts".toList goodNetwork 3 (fun _ => true)).1.success = false ∧
      (loadSegment "seg.ts".toList goodNetwork 3 (fun _ => true)).1.data = none ∧
      (loadSegment "seg.ts".toList goodNetwork 3 (fun _ => true)).1.error.isSome)) :=
  ⟨by decide,
   loadSegment_total_interface "seg.ts".toList goodNetwork 3 (fun _ => true)
     (by decide)⟩

theorem sliceLast_length (n : Nat) (l : List α) :
    (sliceLast n l).length = min n l.length := by
  rw [sliceLast, List.length_drop]
  omega

theorem sliceLast_append_singleton (k : Nat) (l : List α) (e : α) :
    sliceLast (k + 1) (l ++ [e]) = sliceLast k l ++ [e] := by
  rw [sliceLast, sliceLast, List.length_append]
  have h1 : l.length + [e].length - (k + 1) = l.length - k := by
    simp
  rw [h1, List.drop_append_of_le_length (by omega)]

theorem sliceLast_sliceLast (m n : Nat) (l : List α) (h : m ≤ n) :
    sliceLast m (sliceLast n l) = sliceLast m l := by
  rw [sliceLast, sliceLast, sliceLast, List.drop_drop, List.length_drop]
  congr 1
  omega

theorem fold_logEvent_logs (calls : List LogCall) :
    (calls.foldl logEvent initTelemetry).logs =
      sliceLast 50 (calls.map mkLogEntry) := by
  induction calls using List.reverseRecOn with
  | nil => rfl
  | append_singleton es e ih =>
    rw [List.foldl_append, List.foldl_cons, List.foldl_nil]
    show sliceLast 49 (es.foldl logEvent initTelemetry).logs ++ [mkLogEntry e] = _
    rw [ih, sliceLast_sliceLast 49 50 _ (by omega), List.map_append,
      List.map_singleton, sliceLast_append_singleton]

theorem fold_logEvent_bufferEvents (calls : List LogCall) :
    (calls.foldl logEvent initTelemetry).bufferEvents =
      sliceLast 20
        ((calls.filter (fun c => isBufferSeverity c.type)).map mkBufferEvent) := by
  induction calls using List.reverseRecOn with
  | nil => rfl
  | append_singleton es e ih =>
    rw [List.foldl_append, List.foldl_cons, List.foldl_nil]
    show (if isBufferSeverity e.type then
        sliceLast 19 (es.foldl logEvent initTelemetry).bufferEvents ++
          [mkBufferEvent e]
      else (es.foldl logEvent initTelemetry).bufferEvents) = _
    rw [List.filter_append]
    by_cases hs : isBufferSeverity e.type
    · rw [if_pos hs, ih, sliceLast_sliceLast 19 20 _ (by omega)]
      have hf : [e].filter (fun c => isBufferSeverity c.type) = [e] := by
        simp [hs]
      rw [hf, List.map_append, List.map_singleton, sliceLast_append_singleton]
    · rw [if_neg hs, ih]
      have hf : [e].filter (fun c => isBufferSeverity c.type) = [] := by
        simp [hs]
      rw [hf, List.append_nil]

/-- C7: after any sequence of `logEvent` calls starting from the initial
state, the log list is exactly the last (at most) 50 entries in append order
and the buffer-event list is exactly the last (at most) 20 warning/error
events in append order — capacities are never exceeded, the oldest entries
are evicted first, and the order of survivors is preserved. -/
theorem logEvent_bounded_fifo (calls : List LogCall) :
    (calls.foldl logEvent initTelemetry).logs =
      sliceLast 50 (calls.map mkLogEntry) ∧
    (calls.foldl logEvent initTelemetry).bufferEvents =
      sliceLast 20
        ((calls.filter (fun c => isBufferSeverity c.type)).map mkBufferEvent) ∧
    (calls.foldl logEvent initTelemetry).logs.length ≤ 50 ∧
    (calls.foldl logEvent initTelemetry).bufferEvents.length ≤ 20 := by
  refine ⟨fold_logEvent_logs calls, fold_logEvent_bufferEvents calls, ?_, ?_⟩
  · rw [fold_logEvent_logs calls, sliceLast_length]
    omega
  · rw [fold_logEvent_bufferEvents calls, sliceLast_length]
    omega
